import Mathlib

/-!
Shallow embedding of the model comparison & ranking engine of
`src/server/model-comparison.ts` (functions `compareModels`,
`generateRecommendations`, `standardDeviation`, `getModelVersionHistory`,
`createModelVersion`, `compareTwoModels`), over the data model of
`TrainedModel` / `ModelMetrics` from the training module.

Conventions of the embedding:
* JS numbers are embedded as rationals (ℚ); every comparison and arithmetic
  operation the claims touch is exact over ℚ.
* `compareModels` throws on empty input, so it is embedded in `Except String`.
  The non-null assertion `models.find(...)!` of the source is embedded as a
  `match` whose `none` branch is an `Except.error` (proved unreachable).
* The unguarded `while` loop of `getModelVersionHistory` is embedded with
  explicit fuel `models.length + 1`.
* `new Date().toISOString()` is embedded by passing the timestamp `now`
  explicitly.

The `unseal` below only restores default reducibility of the elaborator for
the four rational operations (they are `@[irreducible]` upstream), so that
concrete witness computations can be checked by `decide`.
-/

unseal Rat.mul Rat.add Rat.sub Rat.inv

/-- `ModelMetrics` of the training module: rmse, mse, mae, r2 required,
mape optional (`mape?: number`). -/
structure ModelMetrics where
  rmse : ℚ
  mse : ℚ
  mae : ℚ
  r2 : ℚ
  mape : Option ℚ
deriving DecidableEq

/-- The closed set of algorithm tags:
`type: "linear" | "polynomial" | "random_forest"`. -/
inductive ModelType where
  | linear
  | polynomial
  | random_forest
deriving DecidableEq

/-- `TrainedModel` of the training module.  The `model: any` opaque parameter
blob (never inspected by the comparison core) is embedded as a `String`. -/
structure TrainedModel where
  id : String
  name : String
  type : ModelType
  metrics : ModelMetrics
  model : String
  featureNames : List String
  targetName : String
  trainedAt : String
  datasetId : String
  version : Nat
  parent_id : Option String
  description : Option String
deriving DecidableEq

/-- One row of the comparison table (`ComparisonRow`).  Ranks are `ℤ` because
JS `Array.indexOf` can return `-1` (and hence rank `0`); in `compareModels`
every id occurs in every ranking list so ranks are in fact positive. -/
structure ComparisonRow where
  id : String
  name : String
  type : ModelType
  rmse : ℚ
  mae : ℚ
  r2 : ℚ
  mape : Option ℚ
  rank_rmse : ℤ
  rank_mae : ℤ
  rank_r2 : ℤ
  rank_overall : ℤ
deriving DecidableEq

/-- The four raw per-metric id orderings of `ComparisonResult.rankings`. -/
structure Rankings where
  by_rmse : List String
  by_mae : List String
  by_r2 : List String
  by_mape : List String
deriving DecidableEq

/-- One recommendation message.  Each constructor corresponds to exactly one
template string pushed by `generateRecommendations`; the payloads record the
numbers interpolated into the message (already rounded as displayed). -/
inductive Recommendation where
  /-- "✅ Best Overall Model: name (type) with R² = ..." (R² to 4 decimals). -/
  | bestOverall (name : String) (t : ModelType) (r2 : ℚ)
  /-- "🎯 Excellent fit: R² > 0.9 ...". -/
  | excellentFit
  /-- "✓ Good fit: R² > 0.7 ...". -/
  | goodFit
  /-- "⚠️ Moderate fit: R² > 0.5 ...". -/
  | moderateFit
  /-- "❌ Poor fit: R² < 0.5 ...". -/
  | poorFit
  /-- "📊 Significant improvement: Best model has pct% lower RMSE than worst
  model" (pct to 1 decimal). -/
  | significantImprovement (pct : ℚ)
  /-- "📈 Non-linear relationship detected: Polynomial regression performs best". -/
  | nonLinearDetected
  /-- "🌲 Complex patterns detected: Random Forest ...". -/
  | complexPatterns
  /-- "📏 Linear relationship: Simple linear regression is sufficient ...". -/
  | linearSufficient
  /-- "🎯 High accuracy: MAPE < 10% ...". -/
  | highAccuracy
  /-- "✓ Good accuracy: MAPE < 20% ...". -/
  | goodAccuracy
  /-- "⚠️ Moderate accuracy: MAPE > 20% ...". -/
  | moderateAccuracy
  /-- "⚠️ High variance detected: Consider cross-validation ...". -/
  | highVariance
deriving DecidableEq

/-- `ComparisonResult` returned by `compareModels`. -/
structure ComparisonResult where
  models : List TrainedModel
  rankings : Rankings
  best_overall : String
  comparison_table : List ComparisonRow
  recommendations : List Recommendation
deriving DecidableEq

/-- JS `Math.round`: round to the nearest integer, halves toward +∞,
i.e. `⌊x + 1/2⌋`. -/
def mathRound (q : ℚ) : ℤ :=
  (q + 1/2).floor

/-- The value displayed by JS `Number.prototype.toFixed(1)`: the input rounded
to one decimal place (nearest; of two equally near candidates the larger). -/
def toFixed1 (q : ℚ) : ℚ :=
  (mathRound (q * 10) : ℚ) / 10

/-- The value displayed by JS `Number.prototype.toFixed(4)`. -/
def toFixed4 (q : ℚ) : ℚ :=
  (mathRound (q * 10000) : ℚ) / 10000

/-- JS `Array.prototype.indexOf` over a list of ids: index of the first
occurrence, `-1` when absent. -/
def indexOfId (l : List String) (x : String) : ℤ :=
  match l.findIdx? (fun s => s == x) with
  | some i => (i : ℤ)
  | none => -1

/-- `Math.min(...values)` over a nonempty list (the empty case, which JS maps
to `Infinity`, is unreachable: `compareModels` rejects empty input first). -/
def jsMin : List ℚ → ℚ
  | [] => 0
  | h :: t => t.foldl min h

/-- `Math.max(...values)` over a nonempty list (empty case unreachable). -/
def jsMax : List ℚ → ℚ
  | [] => 0
  | h :: t => t.foldl max h

/-- Insert `x` into `l` before the first element `y` with `le x y`; the
insertion step of a stable insertion sort. -/
def insertSorted {α : Type} (le : α → α → Bool) (x : α) : List α → List α
  | [] => [x]
  | y :: ys => if le x y then x :: y :: ys else y :: insertSorted le x ys

/-- JS `Array.prototype.sort(cmp)` with a consistent numeric comparator is a
stable sort by the preorder `cmp(a,b) <= 0`; every stable sort by the same
total preorder produces the same list, so it is embedded as a stable
insertion sort on the boolean test `le a b` ↔ `cmp(a,b) <= 0` (structurally
recursive, hence kernel-computable, unlike `List.mergeSort`). -/
def jsSort {α : Type} (le : α → α → Bool) : List α → List α
  | [] => []
  | x :: xs => insertSorted le x (jsSort le xs)

/-- `const by_rmse = [...models].sort((a, b) => a.metrics.rmse - b.metrics.rmse).map(m => m.id)`. -/
def by_rmse (models : List TrainedModel) : List String :=
  (jsSort (fun a b => a.metrics.rmse ≤ b.metrics.rmse) models).map (fun m => m.id)

/-- `const by_mae = [...models].sort((a, b) => a.metrics.mae - b.metrics.mae).map(m => m.id)`. -/
def by_mae (models : List TrainedModel) : List String :=
  (jsSort (fun a b => a.metrics.mae ≤ b.metrics.mae) models).map (fun m => m.id)

/-- `const by_r2 = [...models].sort((a, b) => b.metrics.r2 - a.metrics.r2).map(m => m.id)`
(descending: higher R² is better). -/
def by_r2 (models : List TrainedModel) : List String :=
  (jsSort (fun a b => b.metrics.r2 ≤ a.metrics.r2) models).map (fun m => m.id)

/-- `const by_mape = [...models].filter(m => m.metrics.mape != null).sort((a, b) => (a.metrics.mape || 0) - (b.metrics.mape || 0)).map(m => m.id)`. -/
def by_mape (models : List TrainedModel) : List String :=
  (jsSort (fun a b => a.metrics.mape.getD 0 ≤ b.metrics.mape.getD 0)
    (models.filter (fun m => m.metrics.mape.isSome))).map (fun m => m.id)

/-- The body of `models.map(model => { ... })` building one `ComparisonRow`:
ranks are 1-based positions in the per-metric orderings, `rank_overall` is
`Math.round((rank_rmse + rank_mae + rank_r2) / 3)`. -/
def rowOf (models : List TrainedModel) (model : TrainedModel) : ComparisonRow :=
  let rank_rmse := indexOfId (by_rmse models) model.id + 1
  let rank_mae := indexOfId (by_mae models) model.id + 1
  let rank_r2 := indexOfId (by_r2 models) model.id + 1
  let rank_overall := mathRound (((rank_rmse : ℚ) + (rank_mae : ℚ) + (rank_r2 : ℚ)) / 3)
  { id := model.id
    name := model.name
    type := model.type
    rmse := model.metrics.rmse
    mae := model.metrics.mae
    r2 := model.metrics.r2
    mape := model.metrics.mape
    rank_rmse := rank_rmse
    rank_mae := rank_mae
    rank_r2 := rank_r2
    rank_overall := rank_overall }

/-- `const comparison_table: ComparisonRow[] = models.map(model => ...)`. -/
def comparisonRows (models : List TrainedModel) : List ComparisonRow :=
  models.map (rowOf models)

/-- `comparison_table.sort((a, b) => a.rank_overall - b.rank_overall)`
(stable, ascending overall rank). -/
def sortedTable (models : List TrainedModel) : List ComparisonRow :=
  jsSort (fun a b => a.rank_overall ≤ b.rank_overall) (comparisonRows models)

/-- `const mean = values.reduce((a, b) => a + b, 0) / values.length` inside
`standardDeviation`. -/
def listMean (values : List ℚ) : ℚ :=
  values.sum / values.length

/-- `const variance = values.reduce((a, b) => a + Math.pow(b - mean, 2), 0) / values.length`. -/
def listVariance (values : List ℚ) : ℚ :=
  (values.map (fun v => (v - listMean values) ^ 2)).sum / values.length

/-- The source computes `standardDeviation(values) = Math.sqrt(variance)` and
compares it with a threshold `t > 0`; since both sides are nonnegative,
`sqrt variance > t` iff `variance > t * t`, which is how the comparison is
embedded exactly over ℚ. -/
def stdDevExceeds (values : List ℚ) (t : ℚ) : Bool :=
  listVariance values > t * t

/-- `(worst_rmse − best_rmse) / worst_rmse * 100` over all models' RMSE. -/
def rmseImprovementPct (models : List TrainedModel) : ℚ :=
  let best_rmse := jsMin (models.map (fun m => m.metrics.rmse))
  let worst_rmse := jsMax (models.map (fun m => m.metrics.rmse))
  (worst_rmse - best_rmse) / worst_rmse * 100

/-- The exactly-one R² fit bucket pushed by `generateRecommendations`
(first matching threshold wins). -/
def fitRecommendation (best_model : TrainedModel) : Recommendation :=
  if best_model.metrics.r2 > 9/10 then .excellentFit
  else if best_model.metrics.r2 > 7/10 then .goodFit
  else if best_model.metrics.r2 > 1/2 then .moderateFit
  else .poorFit

/-- The "significant improvement" message: the source rounds the percentage
with `toFixed(1)` into the string `rmse_improvement` and then tests
`parseFloat(rmse_improvement) > 10`, so the threshold comparison is on the
rounded value. -/
def improvementRecommendation (models : List TrainedModel) : List Recommendation :=
  let rmse_improvement := toFixed1 (rmseImprovementPct models)
  if rmse_improvement > 10 then [.significantImprovement rmse_improvement] else []

/-- The model-type signal message chain of `generateRecommendations`. -/
def typeRecommendation (models : List TrainedModel) (best_model : TrainedModel) :
    List Recommendation :=
  let model_types := models.map (fun m => m.type)
  if ModelType.polynomial ∈ model_types ∧ best_model.type = ModelType.polynomial then
    [.nonLinearDetected]
  else if ModelType.random_forest ∈ model_types ∧ best_model.type = ModelType.random_forest then
    [.complexPatterns]
  else if best_model.type = ModelType.linear then
    [.linearSufficient]
  else []

/-- The MAPE accuracy bucket (skipped when the best model has no mape). -/
def mapeRecommendation (best_model : TrainedModel) : List Recommendation :=
  match best_model.metrics.mape with
  | some mp =>
    if mp < 10 then [.highAccuracy]
    else if mp < 20 then [.goodAccuracy]
    else [.moderateAccuracy]
  | none => []

/-- The overfitting / high-variance warning over models sharing the best
model's type. -/
def varianceRecommendation (models : List TrainedModel) (best_model : TrainedModel) :
    List Recommendation :=
  let same_type_models := models.filter (fun m => m.type = best_model.type)
  if 1 < same_type_models.length ∧
      stdDevExceeds (same_type_models.map (fun m => m.metrics.r2)) (1/10) then
    [.highVariance]
  else []

/-- `generateRecommendations(models, comparison_table, best_model)`.  The
`comparison_table` parameter is accepted but (as in the source) never read. -/
def generateRecommendations (models : List TrainedModel)
    (_comparison_table : List ComparisonRow) (best_model : TrainedModel) :
    List Recommendation :=
  Recommendation.bestOverall best_model.name best_model.type (toFixed4 best_model.metrics.r2) ::
  fitRecommendation best_model ::
  (improvementRecommendation models ++
   typeRecommendation models best_model ++
   mapeRecommendation best_model ++
   varianceRecommendation models best_model)

/-- `compareModels(models)`: throws `"No models to compare"` on empty input,
otherwise builds the rankings, the table sorted by overall rank, the best
model and the recommendations.  The two `error` branches after the empty
check embed, respectively, the (unreachable) head access on the nonempty
sorted table and the source's non-null assertion on
`models.find(m => m.id === best_overall)!`. -/
def compareModels (models : List TrainedModel) : Except String ComparisonResult :=
  if models.isEmpty then .error "No models to compare"
  else
    match (sortedTable models).head? with
    | none => .error "No models to compare"
    | some first =>
      match models.find? (fun m => m.id == first.id) with
      | none => .error "Best model not found"
      | some best_model =>
        .ok { models := models
              rankings :=
                { by_rmse := by_rmse models
                  by_mae := by_mae models
                  by_r2 := by_r2 models
                  by_mape := by_mape models }
              best_overall := first.id
              comparison_table := sortedTable models
              recommendations := generateRecommendations models (sortedTable models) best_model }

/-- JS `Map` built by `new Map(models.map(m => [m.id, m]))` keeps, for each
key, the LAST entry; `Map.get` is therefore `find?` on the reversed list. -/
def modelMapGet (models : List TrainedModel) (id : String) : Option TrainedModel :=
  models.reverse.find? (fun m => m.id == id)

/-- The `while (current)` loop of `getModelVersionHistory`, with explicit
fuel (the source has no cycle guard): `unshift` the current record, then
follow `parent_id` through the map.  The source's guard
`if (current.parent_id)` is a JS truthiness test, so the walk stops on a
missing parent pointer AND on an empty-string parent pointer; it also stops
on a failed lookup or (in this embedding) on exhausted fuel. -/
def historyLoop (models : List TrainedModel) :
    Nat → Option TrainedModel → List TrainedModel → List TrainedModel
  | 0, _, versions => versions
  | _ + 1, none, versions => versions
  | fuel + 1, some current, versions =>
    let versions' := current :: versions
    match current.parent_id with
    | some pid =>
      if pid = "" then versions'
      else historyLoop models fuel (modelMapGet models pid) versions'
    | none => versions'

/-- `getModelVersionHistory(models, modelId)`: walk the `parent_id` chain
backwards from the target, collecting records in root-to-target order.
Fuel `models.length + 1` reproduces the source loop exactly on any acyclic
collection (the loop visits pairwise-distinct records, hence at most
`models.length` of them); on a cyclic collection the JS loop diverges while
this embedding truncates. -/
def getModelVersionHistory (models : List TrainedModel) (modelId : String) :
    List TrainedModel :=
  historyLoop models (models.length + 1) (modelMapGet models modelId) []

/-- `Partial<TrainedModel>`: every field optional (`none` = key absent). -/
structure TrainedModelPatch where
  id : Option String
  name : Option String
  type : Option ModelType
  metrics : Option ModelMetrics
  model : Option String
  featureNames : Option (List String)
  targetName : Option String
  trainedAt : Option String
  datasetId : Option String
  version : Option Nat
  parent_id : Option String
  description : Option String
deriving DecidableEq

/-- The all-absent patch `{}`. -/
def emptyPatch : TrainedModelPatch :=
  { id := none, name := none, type := none, metrics := none, model := none,
    featureNames := none, targetName := none, trainedAt := none,
    datasetId := none, version := none, parent_id := none, description := none }

/-- JS `newModel.id || fallback` on an optional string: falsy means the key
is absent OR the supplied string is empty. -/
def jsStringOr (o : Option String) (fallback : String) : String :=
  match o with
  | some s => if s = "" then fallback else s
  | none => fallback

/-- `{...parent, ...override}` for one field: the override value when the key
is present, else the parent's. -/
def patchField {α : Type} (o : Option α) (parentValue : α) : α :=
  o.getD parentValue

/-- `createModelVersion(parentModel, newModel)`: spread the parent, then the
patch, then overwrite `id` (`newModel.id || parentId_vN`), `version`
(`parent.version + 1`), `parent_id` (`parent.id`) and `trainedAt` (the fresh
timestamp, passed here as `now`).  The patch's `version`, `parent_id` and
`trainedAt` keys are consequently dead set-then-overwritten data, as in the
source spread. -/
def createModelVersion (now : String) (parentModel : TrainedModel)
    (newModel : TrainedModelPatch) : TrainedModel :=
  let version := parentModel.version + 1
  { id := jsStringOr newModel.id (parentModel.id ++ "_v" ++ toString version)
    name := patchField newModel.name parentModel.name
    type := patchField newModel.type parentModel.type
    metrics := patchField newModel.metrics parentModel.metrics
    model := patchField newModel.model parentModel.model
    featureNames := patchField newModel.featureNames parentModel.featureNames
    targetName := patchField newModel.targetName parentModel.targetName
    trainedAt := now
    datasetId := patchField newModel.datasetId parentModel.datasetId
    version := version
    parent_id := some parentModel.id
    description :=
      match newModel.description with
      | some d => some d
      | none => parentModel.description }

/-- One `metrics_comparison` entry of `compareTwoModels`: the two raw values
and the winning id. -/
structure MetricComparison where
  model1 : ℚ
  model2 : ℚ
  winner : String
deriving DecidableEq

/-- The `metrics_comparison` record (keys `rmse`, `mae`, `r2`). -/
structure MetricsComparison where
  rmse : MetricComparison
  mae : MetricComparison
  r2 : MetricComparison
deriving DecidableEq

/-- The `improvement_percentage` record (keys `rmse`, `mae`, `r2`). -/
structure ImprovementPercentage where
  rmse : ℚ
  mae : ℚ
  r2 : ℚ
deriving DecidableEq

/-- The record returned by `compareTwoModels` (the display-only `summary`
string is not modelled). -/
structure TwoModelComparison where
  winner : String
  metrics_comparison : MetricsComparison
  improvement_percentage : ImprovementPercentage
deriving DecidableEq

/-- `compareTwoModels(model1, model2)`: per-metric winners (`rmse`/`mae`
strict `<` favors model1, `r2` strict `>` favors model1; ties go to model2),
improvement percentages, then majority vote.  The JS `wins` record maps each
of the (at most two) id keys to the number of metric wins; `wins[k]` is
embedded as the count of `k` among the three per-metric winners, which agrees
with the record also when the two ids coincide (single shared key). -/
def compareTwoModels (model1 model2 : TrainedModel) : TwoModelComparison :=
  let rmseComp : MetricComparison :=
    { model1 := model1.metrics.rmse
      model2 := model2.metrics.rmse
      winner := if model1.metrics.rmse < model2.metrics.rmse then model1.id else model2.id }
  let rmseImp : ℚ :=
    |model1.metrics.rmse - model2.metrics.rmse| /
      max model1.metrics.rmse model2.metrics.rmse * 100
  let maeComp : MetricComparison :=
    { model1 := model1.metrics.mae
      model2 := model2.metrics.mae
      winner := if model1.metrics.mae < model2.metrics.mae then model1.id else model2.id }
  let maeImp : ℚ :=
    |model1.metrics.mae - model2.metrics.mae| /
      max model1.metrics.mae model2.metrics.mae * 100
  let r2Comp : MetricComparison :=
    { model1 := model1.metrics.r2
      model2 := model2.metrics.r2
      winner := if model1.metrics.r2 > model2.metrics.r2 then model1.id else model2.id }
  let r2Imp : ℚ :=
    |model1.metrics.r2 - model2.metrics.r2| /
      max (abs model1.metrics.r2) (abs model2.metrics.r2) * 100
  let winners := [rmseComp.winner, maeComp.winner, r2Comp.winner]
  let wins1 := winners.count model1.id
  let wins2 := winners.count model2.id
  { winner := if wins1 > wins2 then model1.id else model2.id
    metrics_comparison := { rmse := rmseComp, mae := maeComp, r2 := r2Comp }
    improvement_percentage := { rmse := rmseImp, mae := maeImp, r2 := r2Imp } }

/-- Recognizer for the three algorithm-signal recommendation messages. -/
def isAlgSignal : Recommendation → Bool
  | .nonLinearDetected => true
  | .complexPatterns => true
  | .linearSufficient => true
  | _ => false

/-- The algorithm-signal message keyed off the best model's type. -/
def algSignal : ModelType → Recommendation
  | .polynomial => .nonLinearDetected
  | .random_forest => .complexPatterns
  | .linear => .linearSufficient

/-- Concrete parent record for the C4 counterexample. -/
def cexParent : TrainedModel :=
  { id := "p", name := "P", type := ModelType.linear,
    metrics := { rmse := 1, mse := 1, mae := 1, r2 := 1, mape := none },
    model := "", featureNames := [], targetName := "y", trainedAt := "t0",
    datasetId := "d", version := 1, parent_id := none, description := none }

/-- Overrides record supplying an explicit empty-string id. -/
def cexEmptyIdPatch : TrainedModelPatch :=
  { emptyPatch with id := some "" }

/-- Acyclic backward-chain witness: `ChainFrom models c cs` states that `cs`
is exactly the sequence of records visited by the backward walk starting at
`c` (target first), each step following a truthy (non-empty, per the JS
truthiness guard) `parent_id` through the model map, ending at a record
with no `parent_id`. -/
inductive ChainFrom (models : List TrainedModel) : TrainedModel → List TrainedModel → Prop
  | last (c : TrainedModel) : c.parent_id = none → ChainFrom models c [c]
  | cons (c c' : TrainedModel) (pid : String) (rest : List TrainedModel) :
      c.parent_id = some pid → pid ≠ "" → modelMapGet models pid = some c' →
      ChainFrom models c' rest → ChainFrom models c (c :: rest)

/-- Concrete model builder used by witness computations. -/
def mkModel (id : String) (t : ModelType) (rmse mae r2 : ℚ) (mape : Option ℚ) :
    TrainedModel :=
  { id := id, name := id, type := t,
    metrics := { rmse := rmse, mse := 0, mae := mae, r2 := r2, mape := mape },
    model := "", featureNames := ["x"], targetName := "y", trainedAt := "t",
    datasetId := "d", version := 1, parent_id := none, description := none }

/-- Comparison table of a `compareModels` outcome (empty on error). -/
def comparisonTableOf : Except String ComparisonResult → List ComparisonRow
  | .ok r => r.comparison_table
  | .error _ => []

/-- Recommendations of a `compareModels` outcome (empty on error). -/
def recsOf : Except String ComparisonResult → List Recommendation
  | .ok r => r.recommendations
  | .error _ => []

/-- `by_mape` ranking of a `compareModels` outcome (empty on error). -/
def byMapeOf : Except String ComparisonResult → List String
  | .ok r => r.rankings.by_mape
  | .error _ => []

/-- `best_overall` of a `compareModels` outcome (empty string on error). -/
def bestOverallOf : Except String ComparisonResult → String
  | .ok r => r.best_overall
  | .error _ => ""

/-- Success recognizer for a `compareModels` outcome. -/
def isOkB : Except String ComparisonResult → Bool
  | .ok _ => true
  | .error _ => false

/-- Recognizer for the significant-improvement message. -/
def isSignificantB : Recommendation → Bool
  | .significantImprovement _ => true
  | _ => false

/-- C7 counterexample data: worst RMSE 10000, best RMSE 8996, giving the
exact improvement percentage 10.04. -/
def cexModelA : TrainedModel := mkModel "A" ModelType.linear 10000 5 (1/2) none

/-- Second C7 counterexample model. -/
def cexModelB : TrainedModel := mkModel "B" ModelType.polynomial 8996 4 (3/4) (some 5)

/-- First witness model: distinct id and metric values. -/
def witModelA : TrainedModel := mkModel "A" ModelType.linear 3 4 (1/4) none

/-- Second witness model. -/
def witModelB : TrainedModel := mkModel "B" ModelType.polynomial 2 3 (1/2) (some 1)

/-- Root record for the C5 witness chain. -/
def witRoot : TrainedModel := mkModel "root" ModelType.linear 1 1 1 none

/-- Witness models for the amended C7: RMSE 100 vs 50 gives an exact 50%
improvement. -/
def witImpA : TrainedModel := mkModel "A" ModelType.linear 100 4 (1/2) none

/-- Second amended-C7 witness model. -/
def witImpB : TrainedModel := mkModel "B" ModelType.linear 50 3 (3/4) none

/-- Parent record of the C9 witness collection. -/
def witParent : TrainedModel := mkModel "P" ModelType.linear 1 1 1 none

/-- Child record of the C9 witness collection (points at "P"). -/
def witChild : TrainedModel :=
  { mkModel "C" ModelType.linear 2 2 2 none with parent_id := some "P" }

/-- Equal-metrics witness models for C10 (distinct ids). -/
def witTieA : TrainedModel := mkModel "A" ModelType.linear 5 6 (1/3) none

/-- Second equal-metrics witness model. -/
def witTieB : TrainedModel := mkModel "B" ModelType.polynomial 5 6 (1/3) none

/-! ## Generic lemmas about the embedded sorting and indexing -/

theorem insertSorted_perm {α : Type} (le : α → α → Bool) (x : α) (l : List α) :
    (insertSorted le x l).Perm (x :: l) := by
  induction l with
  | nil => simp [insertSorted]
  | cons y ys ih =>
    simp only [insertSorted]
    split
    · exact List.Perm.refl _
    · exact (ih.cons y).trans (List.Perm.swap x y ys)

theorem jsSort_perm {α : Type} (le : α → α → Bool) (l : List α) :
    (jsSort le l).Perm l := by
  induction l with
  | nil => simp [jsSort]
  | cons x xs ih => exact (insertSorted_perm le x (jsSort le xs)).trans (ih.cons x)

theorem indexOfId_cons_self (a : String) (t : List String) :
    indexOfId (a :: t) a = 0 := by
  simp [indexOfId]

theorem indexOfId_cons_ne (a x : String) (t : List String) (hne : a ≠ x) (hx : x ∈ t) :
    indexOfId (a :: t) x = indexOfId t x + 1 := by
  have hsome : (t.findIdx? (fun s => s == x)).isSome := by
    rw [List.findIdx?_isSome]
    exact List.any_eq_true.mpr ⟨x, hx, by simp⟩
  obtain ⟨i, hi⟩ := Option.isSome_iff_exists.mp hsome
  simp [indexOfId, List.findIdx?_cons, hne, List.findIdx?_succ, hi]

/-- On a duplicate-free list, mapping every element to its own index yields
`0, 1, ..., length - 1`. -/
theorem indexOfId_map_self (l : List String) (h : l.Nodup) :
    l.map (fun x => indexOfId l x) = (List.range l.length).map Int.ofNat := by
  induction l with
  | nil => simp
  | cons a t ih =>
    obtain ⟨hat, hnd⟩ := List.nodup_cons.mp h
    have hmap : t.map (fun x => indexOfId (a :: t) x) = t.map (fun x => indexOfId t x + 1) :=
      List.map_congr_left (fun x hx => indexOfId_cons_ne a x t (fun e => hat (e ▸ hx)) hx)
    calc (a :: t).map (fun x => indexOfId (a :: t) x)
        = indexOfId (a :: t) a :: t.map (fun x => indexOfId (a :: t) x) := by simp
      _ = 0 :: (t.map (fun x => indexOfId t x)).map (fun z => z + 1) := by
          rw [indexOfId_cons_self, hmap, List.map_map]; rfl
      _ = 0 :: ((List.range t.length).map Int.ofNat).map (fun z => z + 1) := by
          rw [ih hnd]
      _ = (List.range (a :: t).length).map Int.ofNat := by
          rw [List.length_cons, List.range_succ_eq_map, List.map_cons, List.map_map,
            List.map_map]
          refine congrArg₂ List.cons rfl (List.map_congr_left fun i _ => ?_)
          simp [Function.comp_apply, Int.ofNat_succ]

/-- Mapping each id of a duplicate-free list to its index in any permutation
of that list yields a permutation of `0, ..., N-1`. -/
theorem map_indexOfId_perm (ids sorted : List String)
    (hperm : sorted.Perm ids) (hnd : ids.Nodup) :
    (ids.map (fun x => indexOfId sorted x)).Perm
      ((List.range ids.length).map Int.ofNat) := by
  have hnds : sorted.Nodup := (hperm.nodup_iff).mpr hnd
  have h1 : (ids.map (fun x => indexOfId sorted x)).Perm
      (sorted.map (fun x => indexOfId sorted x)) :=
    (hperm.map (fun x => indexOfId sorted x)).symm
  rw [indexOfId_map_self sorted hnds, hperm.length_eq] at h1
  exact h1

/-! ## Structural lemmas about `compareModels` -/

/-- The id column of a comparison row is the model's id. -/
theorem rowOf_id (models : List TrainedModel) (m : TrainedModel) :
    (rowOf models m).id = m.id := rfl

/-- Inverting a successful `compareModels` call. -/
theorem compareModels_ok_inv (models : List TrainedModel) (r : ComparisonResult)
    (h : compareModels models = .ok r) :
    models ≠ [] ∧
    ∃ first best_model,
      (sortedTable models).head? = some first ∧
      models.find? (fun m => m.id == first.id) = some best_model ∧
      r = { models := models
            rankings :=
              { by_rmse := by_rmse models
                by_mae := by_mae models
                by_r2 := by_r2 models
                by_mape := by_mape models }
            best_overall := first.id
            comparison_table := sortedTable models
            recommendations :=
              generateRecommendations models (sortedTable models) best_model } := by
  unfold compareModels at h
  split at h
  · exact absurd h (by simp)
  · split at h
    · exact absurd h (by simp)
    · split at h
      · exact absurd h (by simp)
      · refine ⟨by simpa [List.isEmpty_iff] using ‹¬ models.isEmpty = true›, _, _, ‹_›, ‹_›, ?_⟩
        exact (Except.ok.injEq _ _).mp h.symm

/-- `compareModels` succeeds on every nonempty input. -/
theorem compareModels_total (models : List TrainedModel) (h : models ≠ []) :
    ∃ r, compareModels models = .ok r := by
  have hlen : (sortedTable models).length = models.length := by
    simpa [comparisonRows] using (jsSort_perm (fun a b => a.rank_overall ≤ b.rank_overall)
      (comparisonRows models)).length_eq
  have hne : sortedTable models ≠ [] := by
    intro hnil
    exact h (List.eq_nil_of_length_eq_zero (by simp [← hlen, hnil]))
  obtain ⟨first, rest, hft⟩ := List.exists_cons_of_ne_nil hne
  have hhead : (sortedTable models).head? = some first := by rw [hft]; rfl
  have hmemrow : first ∈ comparisonRows models := by
    have h1 : first ∈ sortedTable models := by rw [hft]; exact List.mem_cons_self _ _
    exact ((jsSort_perm (fun a b => a.rank_overall ≤ b.rank_overall)
      (comparisonRows models)).mem_iff).mp (by simpa [sortedTable] using h1)
  obtain ⟨m, hm, hrow⟩ := List.mem_map.mp (by simpa [comparisonRows] using hmemrow)
  have hfs : (models.find? (fun mm => mm.id == first.id)).isSome := by
    rw [List.find?_isSome]
    exact ⟨m, hm, by rw [← hrow, rowOf_id]; simp⟩
  obtain ⟨best_model, hbm⟩ := Option.isSome_iff_exists.mp hfs
  have hie : models.isEmpty = false := by simpa [List.isEmpty_iff] using h
  refine ⟨{ models := models
            rankings :=
              { by_rmse := by_rmse models
                by_mae := by_mae models
                by_r2 := by_r2 models
                by_mape := by_mape models }
            best_overall := first.id
            comparison_table := sortedTable models
            recommendations :=
              generateRecommendations models (sortedTable models) best_model }, ?_⟩
  simp only [compareModels, hie, Bool.false_eq_true, if_false, hhead, hbm]

theorem range_map_add_one (N : Nat) :
    ((List.range N).map Int.ofNat).map (fun z => z + 1) = (List.range' 1 N).map Int.ofNat := by
  rw [List.range'_eq_map_range, List.map_map, List.map_map]
  exact List.map_congr_left fun i _ => by
    simp only [Function.comp_apply]
    rw [Nat.add_comm 1 i]
    rfl

/-- The rank column extracted by `f` from the raw comparison table is a
permutation of `1..N`, provided `f` reads off the 1-based index in a ranking
list `sorted` that is itself a permutation of the (duplicate-free) id
column. -/
theorem comparisonRows_map_rank (models : List TrainedModel)
    (f : ComparisonRow → ℤ) (sorted : List String)
    (hf : ∀ m, f (rowOf models m) = indexOfId sorted m.id + 1)
    (hperm : sorted.Perm (models.map (fun m => m.id)))
    (hids : (models.map (fun m => m.id)).Nodup) :
    ((comparisonRows models).map f).Perm ((List.range' 1 models.length).map Int.ofNat) := by
  have h1 : (comparisonRows models).map f
      = ((models.map (fun m => m.id)).map (fun x => indexOfId sorted x)).map (fun z => z + 1) := by
    simp only [comparisonRows, List.map_map]
    exact List.map_congr_left fun m _ => by simp [Function.comp_apply, hf]
  have h2 := (map_indexOfId_perm (models.map (fun m => m.id)) sorted hperm hids).map
    (fun z => (z + 1 : ℤ))
  rw [List.length_map] at h2
  rw [h1]
  exact h2.trans ((range_map_add_one models.length) ▸ List.Perm.refl _)

/-- C1: if the models have pairwise-distinct ids (and tie-free metric values),
then the `rank_rmse`, `rank_mae` and `rank_r2` columns of the comparison
table produced by `compareModels` are each a permutation of `1..N`. -/
theorem compareModels_rank_columns_permutation (models : List TrainedModel)
    (r : ComparisonResult)
    (hids : (models.map (fun m => m.id)).Nodup)
    (_hrmse : (models.map (fun m => m.metrics.rmse)).Nodup)
    (_hmae : (models.map (fun m => m.metrics.mae)).Nodup)
    (_hr2 : (models.map (fun m => m.metrics.r2)).Nodup)
    (hr : compareModels models = .ok r) :
    (r.comparison_table.map (fun row => row.rank_rmse)).Perm
        ((List.range' 1 models.length).map Int.ofNat) ∧
    (r.comparison_table.map (fun row => row.rank_mae)).Perm
        ((List.range' 1 models.length).map Int.ofNat) ∧
    (r.comparison_table.map (fun row => row.rank_r2)).Perm
        ((List.range' 1 models.length).map Int.ofNat) := by
  obtain ⟨hne, first, best_model, hhead, hfind, hreq⟩ := compareModels_ok_inv models r hr
  subst hreq
  have hsort := (jsSort_perm (fun a b => a.rank_overall ≤ b.rank_overall)
    (comparisonRows models))
  refine ⟨?_, ?_, ?_⟩
  · refine (hsort.map (fun row => row.rank_rmse)).trans
      (comparisonRows_map_rank models (fun row => row.rank_rmse) (by_rmse models)
        (fun m => rfl) ?_ hids)
    unfold by_rmse
    exact (jsSort_perm _ models).map (fun m => m.id)
  · refine (hsort.map (fun row => row.rank_mae)).trans
      (comparisonRows_map_rank models (fun row => row.rank_mae) (by_mae models)
        (fun m => rfl) ?_ hids)
    unfold by_mae
    exact (jsSort_perm _ models).map (fun m => m.id)
  · refine (hsort.map (fun row => row.rank_r2)).trans
      (comparisonRows_map_rank models (fun row => row.rank_r2) (by_r2 models)
        (fun m => rfl) ?_ hids)
    unfold by_r2
    exact (jsSort_perm _ models).map (fun m => m.id)

theorem indexOfId_singleton_self (s : String) : indexOfId [s] s = 0 := by
  simp [indexOfId]

/-- C2: `compareModels` fails on the empty list with the
"No models to compare" error, succeeds (returns `.ok`) on every nonempty
list, and on a single-model list every rank of the (single) comparison row
equals 1. -/
theorem compareModels_empty_error_and_total :
    compareModels [] = .error "No models to compare" ∧
    (∀ models : List TrainedModel, models ≠ [] → ∃ r, compareModels models = .ok r) ∧
    (∀ m : TrainedModel, ∃ r, compareModels [m] = .ok r ∧
      ∀ row ∈ r.comparison_table,
        row.rank_rmse = 1 ∧ row.rank_mae = 1 ∧ row.rank_r2 = 1 ∧ row.rank_overall = 1) := by
  refine ⟨rfl, compareModels_total, ?_⟩
  intro m
  obtain ⟨r, hr⟩ := compareModels_total [m] (by simp)
  refine ⟨r, hr, ?_⟩
  obtain ⟨hne, first, best_model, hhead, hfind, hreq⟩ := compareModels_ok_inv [m] r hr
  subst hreq
  have h1 : indexOfId (by_rmse [m]) m.id = 0 := by
    simp [by_rmse, jsSort, insertSorted, indexOfId]
  have h2 : indexOfId (by_mae [m]) m.id = 0 := by
    simp [by_mae, jsSort, insertSorted, indexOfId]
  have h3 : indexOfId (by_r2 [m]) m.id = 0 := by
    simp [by_r2, jsSort, insertSorted, indexOfId]
  intro row hrow
  have hrow' : row = rowOf [m] m := by
    simpa [sortedTable, comparisonRows, jsSort, insertSorted] using hrow
  subst hrow'
  simp only [rowOf, h1, h2, h3]
  decide

/-- C6: `by_mape` ranks exactly the models with a defined mape (as a
permutation of their ids, and as a membership criterion when ids are
pairwise distinct), while the comparison table keeps one row per input model
carrying its (possibly undefined) mape. -/
theorem compareModels_mape_subsetting (models : List TrainedModel) (r : ComparisonResult)
    (hids : (models.map (fun m => m.id)).Nodup)
    (hr : compareModels models = .ok r) :
    r.rankings.by_mape.Perm
        ((models.filter (fun m => m.metrics.mape.isSome)).map (fun m => m.id)) ∧
    (∀ m ∈ models, (m.id ∈ r.rankings.by_mape ↔ m.metrics.mape.isSome = true)) ∧
    (r.comparison_table.map (fun row => (row.id, row.mape))).Perm
        (models.map (fun m => (m.id, m.metrics.mape))) := by
  obtain ⟨hne, first, best_model, hhead, hfind, hreq⟩ := compareModels_ok_inv models r hr
  subst hreq
  have hbm : (by_mape models).Perm
      ((models.filter (fun m => m.metrics.mape.isSome)).map (fun m => m.id)) := by
    unfold by_mape
    exact (jsSort_perm (fun a b => a.metrics.mape.getD 0 ≤ b.metrics.mape.getD 0)
      (models.filter (fun m => m.metrics.mape.isSome))).map (fun m => m.id)
  refine ⟨hbm, ?_, ?_⟩
  · intro m hm
    constructor
    · intro hmem
      have hmem' : m.id ∈ (models.filter (fun mm => mm.metrics.mape.isSome)).map
          (fun mm => mm.id) := hbm.mem_iff.mp hmem
      obtain ⟨m', hm'f, hid⟩ := List.mem_map.mp hmem'
      obtain ⟨hm'm, hm'p⟩ := List.mem_filter.mp hm'f
      have heq : m' = m := List.inj_on_of_nodup_map hids hm'm hm hid
      rw [← heq]
      exact hm'p
    · intro hsome
      exact hbm.mem_iff.mpr (List.mem_map.mpr ⟨m, List.mem_filter.mpr ⟨hm, hsome⟩, rfl⟩)
  · have h1 : ((sortedTable models).map (fun row => (row.id, row.mape))).Perm
        ((comparisonRows models).map (fun row => (row.id, row.mape))) :=
      (jsSort_perm _ _).map _
    have h2 : (comparisonRows models).map (fun row => (row.id, row.mape))
        = models.map (fun m => (m.id, m.metrics.mape)) := by
      simp only [comparisonRows, List.map_map]
      exact List.map_congr_left fun m _ => rfl
    exact h1.trans (h2 ▸ List.Perm.refl _)

/-! ## Recommendation membership lemmas -/

theorem fitRecommendation_ne_significant (bm : TrainedModel) (q : ℚ) :
    Recommendation.significantImprovement q ≠ fitRecommendation bm := by
  unfold fitRecommendation
  split_ifs <;> simp

theorem mem_improvementRecommendation (models : List TrainedModel) (q : ℚ) :
    Recommendation.significantImprovement q ∈ improvementRecommendation models ↔
      (10 < toFixed1 (rmseImprovementPct models) ∧
        q = toFixed1 (rmseImprovementPct models)) := by
  unfold improvementRecommendation
  dsimp only
  split_ifs with h
  · simp [h]
  · simp [h]

theorem significant_not_mem_typeRecommendation (models : List TrainedModel)
    (bm : TrainedModel) (q : ℚ) :
    Recommendation.significantImprovement q ∉ typeRecommendation models bm := by
  unfold typeRecommendation
  dsimp only
  split_ifs <;> simp

theorem significant_not_mem_mapeRecommendation (bm : TrainedModel) (q : ℚ) :
    Recommendation.significantImprovement q ∉ mapeRecommendation bm := by
  unfold mapeRecommendation
  cases hm : bm.metrics.mape with
  | none => simp
  | some mp =>
    dsimp only
    split_ifs <;> simp

theorem significant_not_mem_varianceRecommendation (models : List TrainedModel)
    (bm : TrainedModel) (q : ℚ) :
    Recommendation.significantImprovement q ∉ varianceRecommendation models bm := by
  unfold varianceRecommendation
  dsimp only
  split_ifs <;> simp

/-- C7 (amended): the "significant improvement" recommendation of
`compareModels` appears if and only if the RMSE improvement percentage
`(worst − best) / worst * 100`, rounded to one decimal place as displayed by
`toFixed(1)`, exceeds 10 (the source parses the rounded string back before
comparing); when it appears it cites exactly that rounded percentage. -/
theorem significant_improvement_iff_rounded_pct (models : List TrainedModel)
    (r : ComparisonResult) (q : ℚ) (hr : compareModels models = .ok r) :
    Recommendation.significantImprovement q ∈ r.recommendations ↔
      (10 < toFixed1 (rmseImprovementPct models) ∧
        q = toFixed1 (rmseImprovementPct models)) := by
  obtain ⟨hne, first, best_model, hhead, hfind, hreq⟩ := compareModels_ok_inv models r hr
  subst hreq
  have h2 := fitRecommendation_ne_significant best_model q
  have h3 := significant_not_mem_typeRecommendation models best_model q
  have h4 := significant_not_mem_mapeRecommendation best_model q
  have h5 := significant_not_mem_varianceRecommendation models best_model q
  simp [generateRecommendations, mem_improvementRecommendation, h2, h3, h4, h5]

theorem typeRecommendation_eq (models : List TrainedModel) (bm : TrainedModel)
    (hmem : bm ∈ models) : typeRecommendation models bm = [algSignal bm.type] := by
  have htype : bm.type ∈ models.map (fun m => m.type) := List.mem_map.mpr ⟨bm, hmem, rfl⟩
  unfold typeRecommendation
  cases hbt : bm.type with
  | polynomial =>
    have hp : ModelType.polynomial ∈ models.map (fun m => m.type) := hbt ▸ htype
    simp [hp, algSignal]
  | random_forest =>
    have hrf : ModelType.random_forest ∈ models.map (fun m => m.type) := hbt ▸ htype
    simp [hrf, algSignal]
  | linear => simp [algSignal]

theorem filter_isAlgSignal_improvement (models : List TrainedModel) :
    (improvementRecommendation models).filter (fun rec => isAlgSignal rec) = [] := by
  unfold improvementRecommendation
  dsimp only
  split_ifs <;> simp [isAlgSignal]

theorem filter_isAlgSignal_mape (bm : TrainedModel) :
    (mapeRecommendation bm).filter (fun rec => isAlgSignal rec) = [] := by
  unfold mapeRecommendation
  cases hm : bm.metrics.mape with
  | none => simp
  | some mp =>
    dsimp only
    split_ifs <;> simp [isAlgSignal]

theorem filter_isAlgSignal_variance (models : List TrainedModel) (bm : TrainedModel) :
    (varianceRecommendation models bm).filter (fun rec => isAlgSignal rec) = [] := by
  unfold varianceRecommendation
  dsimp only
  split_ifs <;> simp [isAlgSignal]

theorem isAlgSignal_fitRecommendation (bm : TrainedModel) :
    isAlgSignal (fitRecommendation bm) = false := by
  unfold fitRecommendation
  split_ifs <;> rfl

theorem isAlgSignal_algSignal (t : ModelType) : isAlgSignal (algSignal t) = true := by
  cases t <;> rfl

/-- C8: among the recommendations of `compareModels`, exactly one
algorithm-signal message appears, and it is determined solely by the type of
the best-overall model (polynomial → non-linear, random_forest → complex
patterns, linear → linear sufficient). -/
theorem algorithm_signal_recommendation_unique (models : List TrainedModel)
    (r : ComparisonResult) (hr : compareModels models = .ok r) :
    ∃ best_model ∈ models, best_model.id = r.best_overall ∧
      r.recommendations.filter (fun rec => isAlgSignal rec) =
        [algSignal best_model.type] := by
  obtain ⟨hne, first, best_model, hhead, hfind, hreq⟩ := compareModels_ok_inv models r hr
  have hbm_mem : best_model ∈ models := List.mem_of_find?_eq_some hfind
  have hbm_id : best_model.id = first.id := by
    have hp := List.find?_some hfind
    simpa using hp
  subst hreq
  refine ⟨best_model, hbm_mem, hbm_id, ?_⟩
  simp only [generateRecommendations, List.filter_cons, List.filter_append,
    typeRecommendation_eq models best_model hbm_mem,
    filter_isAlgSignal_improvement, filter_isAlgSignal_mape,
    filter_isAlgSignal_variance, isAlgSignal_fitRecommendation,
    isAlgSignal_algSignal]
  simp [isAlgSignal]

/-- C3: for two models with distinct ids, `compareTwoModels` returns a winner
that is one of the two ids and that wins at least 2 of the 3 per-metric
comparisons (rmse, mae, r2); with 3 binary votes no overall tie can occur. -/
theorem compareTwoModels_majority_winner (m1 m2 : TrainedModel)
    (hne : m1.id ≠ m2.id) :
    ((compareTwoModels m1 m2).winner = m1.id ∨ (compareTwoModels m1 m2).winner = m2.id) ∧
    2 ≤ [(compareTwoModels m1 m2).metrics_comparison.rmse.winner,
         (compareTwoModels m1 m2).metrics_comparison.mae.winner,
         (compareTwoModels m1 m2).metrics_comparison.r2.winner].count
           (compareTwoModels m1 m2).winner := by
  unfold compareTwoModels
  dsimp only
  by_cases h1 : m1.metrics.rmse < m2.metrics.rmse <;>
    by_cases h2 : m1.metrics.mae < m2.metrics.mae <;>
      by_cases h3 : m1.metrics.r2 > m2.metrics.r2 <;>
        simp [h1, h2, h3, List.count_cons, hne, Ne.symm hne]

/-- C10: `compareTwoModels` resolves every exact tie in a metric in favor of
the second model (the strict comparisons favor the first argument only), and
when all three metrics tie the overall winner is the second model's id. -/
theorem compareTwoModels_tie_favors_second (m1 m2 : TrainedModel) :
    (m1.metrics.rmse = m2.metrics.rmse →
      (compareTwoModels m1 m2).metrics_comparison.rmse.winner = m2.id) ∧
    (m1.metrics.mae = m2.metrics.mae →
      (compareTwoModels m1 m2).metrics_comparison.mae.winner = m2.id) ∧
    (m1.metrics.r2 = m2.metrics.r2 →
      (compareTwoModels m1 m2).metrics_comparison.r2.winner = m2.id) ∧
    (m1.metrics.rmse = m2.metrics.rmse → m1.metrics.mae = m2.metrics.mae →
      m1.metrics.r2 = m2.metrics.r2 → (compareTwoModels m1 m2).winner = m2.id) := by
  refine ⟨?_, ?_, ?_, ?_⟩
  · intro h
    unfold compareTwoModels
    dsimp only
    rw [if_neg (by rw [h]; exact lt_irrefl _)]
  · intro h
    unfold compareTwoModels
    dsimp only
    rw [if_neg (by rw [h]; exact lt_irrefl _)]
  · intro h
    unfold compareTwoModels
    dsimp only
    rw [if_neg (by rw [h]; exact lt_irrefl _)]
  · intro h1 h2 h3
    unfold compareTwoModels
    dsimp only
    rw [if_neg (show ¬ m1.metrics.rmse < m2.metrics.rmse by rw [h1]; exact lt_irrefl _),
      if_neg (show ¬ m1.metrics.mae < m2.metrics.mae by rw [h2]; exact lt_irrefl _),
      if_neg (show ¬ m1.metrics.r2 > m2.metrics.r2 by rw [h3]; exact lt_irrefl _)]
    by_cases hid : m1.id = m2.id
    · simp [hid]
    · simp [List.count_cons, hid]

/-! ## createModelVersion: C4 -/

/-- C4 (amended): `createModelVersion` increments the version, sets
`parent_id` to the parent's id and `trainedAt` to the fresh timestamp; the
new id is the caller-supplied id when that id is supplied AND non-empty (the
source applies the falsy `||` fallback), otherwise it is derived as
`parentId_vN` from the parent id and the new version number; every field
whose key is absent from the overrides is copied from the parent. -/
theorem createModelVersion_fields_law (now : String) (parent : TrainedModel)
    (patch : TrainedModelPatch) :
    (createModelVersion now parent patch).version = parent.version + 1 ∧
    (createModelVersion now parent patch).parent_id = some parent.id ∧
    (createModelVersion now parent patch).trainedAt = now ∧
    (∀ s : String, patch.id = some s → s ≠ "" →
      (createModelVersion now parent patch).id = s) ∧
    ((patch.id = none ∨ patch.id = some "") →
      (createModelVersion now parent patch).id =
        parent.id ++ "_v" ++ toString (parent.version + 1)) ∧
    (patch.name = none → (createModelVersion now parent patch).name = parent.name) ∧
    (patch.type = none → (createModelVersion now parent patch).type = parent.type) ∧
    (patch.metrics = none →
      (createModelVersion now parent patch).metrics = parent.metrics) ∧
    (patch.model = none → (createModelVersion now parent patch).model = parent.model) ∧
    (patch.featureNames = none →
      (createModelVersion now parent patch).featureNames = parent.featureNames) ∧
    (patch.targetName = none →
      (createModelVersion now parent patch).targetName = parent.targetName) ∧
    (patch.datasetId = none →
      (createModelVersion now parent patch).datasetId = parent.datasetId) ∧
    (patch.description = none →
      (createModelVersion now parent patch).description = parent.description) := by
  refine ⟨rfl, rfl, rfl, ?_, ?_, ?_, ?_, ?_, ?_, ?_, ?_, ?_, ?_⟩
  · intro s hs hne
    simp [createModelVersion, jsStringOr, hs, hne]
  · intro hid
    rcases hid with hid | hid <;> simp [createModelVersion, jsStringOr, hid]
  · intro h; simp [createModelVersion, patchField, h]
  · intro h; simp [createModelVersion, patchField, h]
  · intro h; simp [createModelVersion, patchField, h]
  · intro h; simp [createModelVersion, patchField, h]
  · intro h; simp [createModelVersion, patchField, h]
  · intro h; simp [createModelVersion, patchField, h]
  · intro h; simp [createModelVersion, patchField, h]
  · intro h; simp [createModelVersion, h]

/-- C4 counterexample: the caller supplies the id `""`, but the returned
record's id is the derived `"p_v2"`, not the caller-supplied id — JS `||`
treats the empty string as falsy. -/
theorem createModelVersion_empty_id_override_counterexample :
    cexEmptyIdPatch.id = some "" ∧
    (createModelVersion "t1" cexParent cexEmptyIdPatch).id = "p_v2" ∧
    (createModelVersion "t1" cexParent cexEmptyIdPatch).id ≠ "" := by
  refine ⟨rfl, by decide, by decide⟩

/-! ## Version chain walk: C5 and C9 -/

theorem modelMapGet_mem (models : List TrainedModel) (id : String) (m : TrainedModel)
    (h : modelMapGet models id = some m) : m ∈ models :=
  List.mem_reverse.mp (List.mem_of_find?_eq_some h)

theorem historyLoop_chain (models : List TrainedModel) (c : TrainedModel)
    (cs : List TrainedModel) (hch : ChainFrom models c cs) :
    ∀ (fuel : Nat) (acc : List TrainedModel), cs.length ≤ fuel →
      historyLoop models fuel (some c) acc = cs.reverse ++ acc := by
  induction hch with
  | last d hd =>
    intro fuel acc hf
    cases fuel with
    | zero => simp at hf
    | succ fuel => simp [historyLoop, hd]
  | cons d d' pid rest hpid hpne hget hch ih =>
    intro fuel acc hf
    cases fuel with
    | zero => simp at hf
    | succ fuel =>
      have hlen : rest.length ≤ fuel := by simpa using hf
      simp only [historyLoop, hpid]
      rw [if_neg hpne, hget, ih fuel (d :: acc) hlen]
      simp

theorem ChainFrom_subset (models : List TrainedModel) (c : TrainedModel)
    (cs : List TrainedModel) (hch : ChainFrom models c cs) :
    c ∈ models → ∀ x ∈ cs, x ∈ models := by
  induction hch with
  | last d hd =>
    intro hc x hx
    rw [List.mem_singleton.mp hx]
    exact hc
  | cons d d' pid rest hpid hpne hget hch ih =>
    intro hc x hx
    rcases List.mem_cons.mp hx with heq | hx'
    · rw [heq]; exact hc
    · exact ih (modelMapGet_mem models pid d' hget) x hx'

/-- C9: when the `parent_id` links reachable from the target form an acyclic
chain of truthy (non-empty) pointers ending at a record with no parent
(witnessed by `ChainFrom` and the duplicate-freeness of the chain), the
backward walk terminates: every fuel bound of at least the chain length
yields the same result, and `getModelVersionHistory` (whose fuel
`models.length + 1` then suffices) returns the chain in root-to-target
order. -/
theorem getModelVersionHistory_terminates_on_acyclic (models : List TrainedModel)
    (modelId : String) (c0 : TrainedModel) (cs : List TrainedModel)
    (h0 : modelMapGet models modelId = some c0)
    (hch : ChainFrom models c0 cs)
    (hnd : (cs.map (fun c => c.id)).Nodup) :
    getModelVersionHistory models modelId = cs.reverse ∧
    ∀ fuel : Nat, cs.length ≤ fuel →
      historyLoop models fuel (modelMapGet models modelId) [] = cs.reverse := by
  have hsub : cs ⊆ models :=
    fun x hx => ChainFrom_subset models c0 cs hch (modelMapGet_mem models modelId c0 h0) x hx
  have hlen : cs.length ≤ models.length :=
    (List.subperm_of_subset (List.Nodup.of_map _ hnd) hsub).length_le
  constructor
  · unfold getModelVersionHistory
    rw [h0, historyLoop_chain models c0 cs hch (models.length + 1) [] (by omega)]
    simp
  · intro fuel hf
    rw [h0, historyLoop_chain models c0 cs hch fuel [] hf]
    simp

/-- With no id override the derived id strictly extends the parent's id, so
it is strictly longer. -/
theorem createModelVersion_id_longer (now : String) (p : TrainedModel) :
    p.id.length < (createModelVersion now p emptyPatch).id.length := by
  show p.id.length < (p.id ++ "_v" ++ toString (p.version + 1)).length
  rw [String.length_append, String.length_append]
  have h2 : ("_v" : String).length = 2 := by decide
  omega

theorem ne_of_id_length_lt (a b : TrainedModel) (h : a.id.length < b.id.length) :
    b.id ≠ a.id := by
  intro e
  rw [e] at h
  exact lt_irrefl _ h

/-- C5: building the chain root→v1→v2→v3 by three applications of
`createModelVersion` with empty overrides (arbitrary fresh timestamps), then
walking the version history of v3 over the collection of all four records,
returns exactly `[root, v1, v2, v3]` in root-to-target order.  The root must
be a genuine root record: no `parent_id` and a truthy (non-empty) id — with
an empty root id the child's `parent_id` is the falsy `""` and the source's
truthiness guard would stop the walk before reaching the root. -/
theorem version_chain_history_roundtrip (root : TrainedModel) (n1 n2 n3 : String)
    (hroot : root.parent_id = none) (hrid : root.id ≠ "") :
    ∀ v1 v2 v3 : TrainedModel,
      v1 = createModelVersion n1 root emptyPatch →
      v2 = createModelVersion n2 v1 emptyPatch →
      v3 = createModelVersion n3 v2 emptyPatch →
      getModelVersionHistory [root, v1, v2, v3] v3.id = [root, v1, v2, v3] := by
  intro v1 v2 v3 h1 h2 h3
  have l01 : root.id.length < v1.id.length := h1 ▸ createModelVersion_id_longer n1 root
  have l12 : v1.id.length < v2.id.length := h2 ▸ createModelVersion_id_longer n2 v1
  have l23 : v2.id.length < v3.id.length := h3 ▸ createModelVersion_id_longer n3 v2
  have pne1 : v1.id ≠ "" := by
    intro e
    rw [e] at l01
    exact absurd (Nat.lt_of_le_of_lt (Nat.zero_le _) l01) (by decide)
  have pne2 : v2.id ≠ "" := by
    intro e
    rw [e] at l12
    exact absurd (Nat.lt_of_le_of_lt (Nat.zero_le _) l12) (by decide)
  have b32 : (v3.id == v2.id) = false :=
    beq_eq_false_iff_ne.mpr (ne_of_id_length_lt v2 v3 l23)
  have b31 : (v3.id == v1.id) = false :=
    beq_eq_false_iff_ne.mpr (ne_of_id_length_lt v1 v3 (l12.trans l23))
  have b30 : (v3.id == root.id) = false :=
    beq_eq_false_iff_ne.mpr (ne_of_id_length_lt root v3 (l01.trans (l12.trans l23)))
  have b21 : (v2.id == v1.id) = false :=
    beq_eq_false_iff_ne.mpr (ne_of_id_length_lt v1 v2 l12)
  have b20 : (v2.id == root.id) = false :=
    beq_eq_false_iff_ne.mpr (ne_of_id_length_lt root v2 (l01.trans l12))
  have b10 : (v1.id == root.id) = false :=
    beq_eq_false_iff_ne.mpr (ne_of_id_length_lt root v1 l01)
  have hget3 : modelMapGet [root, v1, v2, v3] v3.id = some v3 := by
    simp [modelMapGet, List.find?]
  have hget2 : modelMapGet [root, v1, v2, v3] v2.id = some v2 := by
    simp [modelMapGet, List.find?, b32]
  have hget1 : modelMapGet [root, v1, v2, v3] v1.id = some v1 := by
    simp [modelMapGet, List.find?, b31, b21]
  have hget0 : modelMapGet [root, v1, v2, v3] root.id = some root := by
    simp [modelMapGet, List.find?, b30, b20, b10]
  have hp3 : v3.parent_id = some v2.id := by rw [h3]; rfl
  have hp2 : v2.parent_id = some v1.id := by rw [h2]; rfl
  have hp1 : v1.parent_id = some root.id := by rw [h1]; rfl
  have hchain : ChainFrom [root, v1, v2, v3] v3 [v3, v2, v1, root] :=
    ChainFrom.cons v3 v2 v2.id [v2, v1, root] hp3 pne2 hget2
      (ChainFrom.cons v2 v1 v1.id [v1, root] hp2 pne1 hget1
        (ChainFrom.cons v1 root root.id [root] hp1 hrid hget0
          (ChainFrom.last root hroot)))
  unfold getModelVersionHistory
  rw [hget3, historyLoop_chain [root, v1, v2, v3] v3 [v3, v2, v1, root] hchain
    ([root, v1, v2, v3].length + 1) [] (by simp)]
  simp

/-- C7 counterexample: with RMSE values 10000 and 8996 the percentage
`(worst − best)/worst·100 = 10.04` exceeds 10, so the claim as stated
requires the significant-improvement message, yet `compareModels` emits
none: the source rounds the percentage with `toFixed(1)` to `10.0` before
comparing it against 10. -/
theorem significant_improvement_threshold_counterexample :
    (10 : ℚ) < rmseImprovementPct [cexModelA, cexModelB] ∧
    isOkB (compareModels [cexModelA, cexModelB]) = true ∧
    (recsOf (compareModels [cexModelA, cexModelB])).any isSignificantB = false := by
  refine ⟨by decide, by decide, by decide⟩

/-! ## Witness data and witness theorems -/

theorem compareModels_rank_columns_permutation_witness :
    ((comparisonTableOf (compareModels [witModelA, witModelB])).map
        (fun row => row.rank_rmse)).Perm ((List.range' 1 2).map Int.ofNat) ∧
    ((comparisonTableOf (compareModels [witModelA, witModelB])).map
        (fun row => row.rank_mae)).Perm ((List.range' 1 2).map Int.ofNat) ∧
    ((comparisonTableOf (compareModels [witModelA, witModelB])).map
        (fun row => row.rank_r2)).Perm ((List.range' 1 2).map Int.ofNat) := by
  obtain ⟨r, hr⟩ : ∃ r, compareModels [witModelA, witModelB] = .ok r := ⟨_, rfl⟩
  have h := compareModels_rank_columns_permutation [witModelA, witModelB] r
    (by decide) (by decide) (by decide) (by decide) hr
  simpa [comparisonTableOf, hr] using h

theorem compareModels_empty_error_and_total_witness :
    ∃ r, compareModels [mkModel "W" ModelType.linear 1 1 1 none] = .ok r ∧
      ∀ row ∈ r.comparison_table,
        row.rank_rmse = 1 ∧ row.rank_mae = 1 ∧ row.rank_r2 = 1 ∧ row.rank_overall = 1 :=
  compareModels_empty_error_and_total.2.2 (mkModel "W" ModelType.linear 1 1 1 none)

theorem compareTwoModels_majority_winner_witness :
    ((compareTwoModels witModelA witModelB).winner = witModelA.id ∨
      (compareTwoModels witModelA witModelB).winner = witModelB.id) ∧
    2 ≤ [(compareTwoModels witModelA witModelB).metrics_comparison.rmse.winner,
         (compareTwoModels witModelA witModelB).metrics_comparison.mae.winner,
         (compareTwoModels witModelA witModelB).metrics_comparison.r2.winner].count
           (compareTwoModels witModelA witModelB).winner :=
  compareTwoModels_majority_winner witModelA witModelB (by decide)

theorem createModelVersion_fields_law_witness :
    (createModelVersion "t2" cexParent { emptyPatch with id := some "custom" }).id
      = "custom" :=
  (createModelVersion_fields_law "t2" cexParent
    { emptyPatch with id := some "custom" }).2.2.2.1 "custom" rfl (by decide)

theorem version_chain_history_roundtrip_witness :
    getModelVersionHistory
      [witRoot, createModelVersion "ta" witRoot emptyPatch,
       createModelVersion "tb" (createModelVersion "ta" witRoot emptyPatch) emptyPatch,
       createModelVersion "tc"
         (createModelVersion "tb" (createModelVersion "ta" witRoot emptyPatch) emptyPatch)
         emptyPatch]
      (createModelVersion "tc"
        (createModelVersion "tb" (createModelVersion "ta" witRoot emptyPatch) emptyPatch)
        emptyPatch).id =
    [witRoot, createModelVersion "ta" witRoot emptyPatch,
     createModelVersion "tb" (createModelVersion "ta" witRoot emptyPatch) emptyPatch,
     createModelVersion "tc"
       (createModelVersion "tb" (createModelVersion "ta" witRoot emptyPatch) emptyPatch)
       emptyPatch] :=
  version_chain_history_roundtrip witRoot "ta" "tb" "tc" rfl (by decide) _ _ _ rfl rfl rfl

theorem compareModels_mape_subsetting_witness :
    (byMapeOf (compareModels [witModelA, witModelB])).Perm
      (([witModelA, witModelB].filter (fun m => m.metrics.mape.isSome)).map
        (fun m => m.id)) ∧
    (witModelA.id ∈ byMapeOf (compareModels [witModelA, witModelB]) ↔
      witModelA.metrics.mape.isSome = true) ∧
    ((comparisonTableOf (compareModels [witModelA, witModelB])).map
        (fun row => (row.id, row.mape))).Perm
      ([witModelA, witModelB].map (fun m => (m.id, m.metrics.mape))) := by
  obtain ⟨r, hr⟩ : ∃ r, compareModels [witModelA, witModelB] = .ok r := ⟨_, rfl⟩
  have h := compareModels_mape_subsetting [witModelA, witModelB] r (by decide) hr
  exact ⟨by simpa [byMapeOf, hr] using h.1,
    by simpa [byMapeOf, hr] using h.2.1 witModelA (List.mem_cons_self _ _),
    by simpa [comparisonTableOf, hr] using h.2.2⟩

theorem significant_improvement_iff_rounded_pct_witness :
    Recommendation.significantImprovement 50 ∈ recsOf (compareModels [witImpA, witImpB]) ↔
      (10 < toFixed1 (rmseImprovementPct [witImpA, witImpB]) ∧
        (50 : ℚ) = toFixed1 (rmseImprovementPct [witImpA, witImpB])) := by
  obtain ⟨r, hr⟩ : ∃ r, compareModels [witImpA, witImpB] = .ok r := ⟨_, rfl⟩
  simpa [recsOf, hr] using
    significant_improvement_iff_rounded_pct [witImpA, witImpB] r 50 hr

theorem algorithm_signal_recommendation_unique_witness :
    ∃ best_model ∈ [witModelA, witModelB],
      best_model.id = bestOverallOf (compareModels [witModelA, witModelB]) ∧
      (recsOf (compareModels [witModelA, witModelB])).filter
          (fun rec => isAlgSignal rec) = [algSignal best_model.type] := by
  obtain ⟨r, hr⟩ : ∃ r, compareModels [witModelA, witModelB] = .ok r := ⟨_, rfl⟩
  simpa [recsOf, bestOverallOf, hr] using
    algorithm_signal_recommendation_unique [witModelA, witModelB] r hr

theorem getModelVersionHistory_terminates_on_acyclic_witness :
    getModelVersionHistory [witParent, witChild] "C" = [witParent, witChild] ∧
    historyLoop [witParent, witChild] 2 (modelMapGet [witParent, witChild] "C") []
      = [witParent, witChild] :=
  ⟨(getModelVersionHistory_terminates_on_acyclic [witParent, witChild] "C" witChild
      [witChild, witParent] (by decide)
      (ChainFrom.cons witChild witParent "P" [witParent] rfl (by decide) (by decide)
        (ChainFrom.last witParent rfl)) (by decide)).1,
   (getModelVersionHistory_terminates_on_acyclic [witParent, witChild] "C" witChild
      [witChild, witParent] (by decide)
      (ChainFrom.cons witChild witParent "P" [witParent] rfl (by decide) (by decide)
        (ChainFrom.last witParent rfl)) (by decide)).2 2 (by decide)⟩

theorem compareTwoModels_tie_favors_second_witness :
    (compareTwoModels witTieA witTieB).metrics_comparison.rmse.winner = witTieB.id ∧
    (compareTwoModels witTieA witTieB).winner = witTieB.id :=
  ⟨(compareTwoModels_tie_favors_second witTieA witTieB).1 rfl,
   (compareTwoModels_tie_favors_second witTieA witTieB).2.2.2 rfl rfl rfl⟩
